import Mathlib

/-!
Verification of the layout and broadcasting engine of a multidimensional
array library.  The Rust source is shallowly embedded: `usize` values are
`Nat`, `isize` values are `Int`, machine width is 64 bits and wrapping or
checked arithmetic is made explicit exactly where the source uses it.
Shapes are lists of axis lengths (`List Nat`) and strides are lists of
per-axis signed steps (`List Int`).
-/

namespace NdLayout

/-- The modulus of 64-bit machine words. -/
def WORD_MOD : Nat := 2 ^ 64

/-- `usize::MAX` on a 64-bit target. -/
def USIZE_MAX : Nat := 2 ^ 64 - 1

/-- `isize::MAX` on a 64-bit target, as a natural number. -/
def ISIZE_MAX_NAT : Nat := 2 ^ 63 - 1

/-- `isize::MAX` on a 64-bit target. -/
def ISIZE_MAX : Int := 2 ^ 63 - 1

/-- `isize::MIN` on a 64-bit target. -/
def ISIZE_MIN : Int := -(2 ^ 63)

/-- `usize::checked_mul`: `None` exactly when the product overflows `usize`. -/
def checked_mul_usize (a b : Nat) : Option Nat :=
  if a * b ≤ USIZE_MAX then some (a * b) else none

/-- `isize::checked_mul`: `None` exactly when the product overflows `isize`. -/
def checked_mul_isize (a b : Int) : Option Int :=
  if ISIZE_MIN ≤ a * b ∧ a * b ≤ ISIZE_MAX then some (a * b) else none

/-- `isize::checked_sub`: `None` exactly when the difference overflows `isize`. -/
def checked_sub_isize (a b : Int) : Option Int :=
  if ISIZE_MIN ≤ a - b ∧ a - b ≤ ISIZE_MAX then some (a - b) else none

/-- Two's-complement reinterpretation of an unbounded integer as `isize`
(the effect of Rust's wrapping arithmetic and of `as isize` casts). -/
def wrap_isize (x : Int) : Int := (x + 2 ^ 63) % 2 ^ 64 - 2 ^ 63

/-- `NShape::size_checked` (src/layout/n_repr.rs lines 349-352) and
`DShape::size_checked` (src/layout/dyn_repr.rs lines 271-274): both override
the trait default with `self.iter().try_fold(1usize, |acc, &i| acc.checked_mul(i))`,
checking only for `usize` overflow. -/
def size_checked (shape : List Nat) : Option Nat :=
  shape.foldlM (fun acc i => checked_mul_usize acc i) 1

/-- `FitsInISize::as_usize_if_isize_compatible` (src/layout/mod.rs lines 514-529). -/
def as_usize_if_isize_compatible (v : Nat) : Option Nat :=
  if v ≤ ISIZE_MAX_NAT then some v else none

/-- The `Shape` trait's default `size_checked` (src/layout/shape.rs lines 126-132):
the same product fold followed by the fits-in-`isize` check. -/
def size_checked_default (shape : List Nat) : Option Nat :=
  (size_checked shape).bind as_usize_if_isize_compatible

/-- `Shape::iter_isize_checked` (src/layout/shape.rs lines 146-150): `Some` iff
`self.size_checked()` (the overridden one for `NShape`/`DShape`) is `Some`, and then
each axis length cast with `as isize`. -/
def iter_isize_checked (shape : List Nat) : Option (List Int) :=
  (size_checked shape).map (fun _ => shape.map (fun v => wrap_isize (v : Int)))

/-- `offset_range_checked` (src/layout/mod.rs lines 305-315): per axis,
`(len - 1).checked_mul(stride)` split into its negative and positive part,
both parts accumulated by a `try_fold`, and a final `checked_sub` of max − min.
The accumulating additions are unchecked `isize` additions in the source;
they are modelled as exact integer additions, which agrees with the source
whenever the running sums stay in range (they do at every input considered here). -/
def offset_range_checked (shape : List Nat) (strides : List Int) : Option Int :=
  (iter_isize_checked shape).bind (fun shs =>
    ((List.zipWith
        (fun (sh : Int) (st : Int) =>
          (checked_mul_isize (sh - 1) st).map (fun v => (min v 0, max v 0)))
        shs strides).foldlM
      (fun (acc : Int × Int) (x : Option (Int × Int)) =>
        x.map (fun y => (acc.1 + y.1, acc.2 + y.2)))
      ((0 : Int), (0 : Int))).bind
    (fun mm => checked_sub_isize mm.2 mm.1))

/-- `Mul<usize> for NShape` (src/layout/n_repr.rs lines 287-299): every axis
length is multiplied by the scalar (unchecked `usize` multiplication, wrapping). -/
def NShape_mul (s : List Nat) (k : Nat) : List Nat :=
  s.map (fun o => (o * k) % WORD_MOD)

/-- `MulAssign<usize> for NShape` (src/layout/n_repr.rs lines 301-309): the
body of `mul_assign` is `*o += rhs`, i.e. it adds the scalar to every axis
length (unchecked `usize` addition, wrapping). -/
def NShape_mul_assign (s : List Nat) (k : Nat) : List Nat :=
  s.map (fun o => (o + k) % WORD_MOD)

/-- `NStrides::is_c_order` (src/layout/n_repr.rs lines 373-376):
`self.is_sorted_by(|a, b| a >= b)`, i.e. consecutive strides are non-increasing. -/
def is_c_order : List Int → Bool
  | [] => true
  | [_] => true
  | a :: b :: t => decide (a ≥ b) && is_c_order (b :: t)

/-- `NStrides::is_f_order` (src/layout/n_repr.rs lines 378-381): `self.is_sorted()`,
i.e. consecutive strides are non-decreasing. -/
def is_f_order : List Int → Bool
  | [] => true
  | [_] => true
  | a :: b :: t => decide (a ≤ b) && is_f_order (b :: t)

/-- `NStrides::default_c` (src/layout/n_repr.rs lines 386-399): strides all
start at 1 and the loop sets `strides[N-i-1] = strides[N-i] * (shape[N-i] as isize)`
for `i = 1..N`, i.e. walking from the right, each stride is the stride to its
right times the axis length to its right (wrapping `isize` arithmetic). -/
def default_c : List Nat → List Int
  | [] => []
  | [_] => [1]
  | _ :: y :: t =>
    let s := default_c (y :: t)
    wrap_isize (s.headD 1 * wrap_isize (y : Int)) :: s

/-- Helper for `NStrides::default_f`: continues the forward loop
`strides[i] = strides[i-1] * (shape[i] as isize)` given the previous stride. -/
def default_f_go (prev : Int) : List Nat → List Int
  | [] => []
  | d :: t =>
    let s := wrap_isize (prev * wrap_isize (d : Int))
    s :: default_f_go s t

/-- `NStrides::default_f` (src/layout/n_repr.rs lines 401-414): strides all
start at 1 and the loop sets `strides[i] = strides[i-1] * (shape[i] as isize)`
for `i = 1..N` (note: `shape[i]`, not `shape[i-1]`). -/
def NStrides_default_f : List Nat → List Int
  | [] => []
  | _ :: t => 1 :: default_f_go 1 t

/-- Helper for `c_strides`: the reversed traversal with running product. -/
def c_strides_go (prod : Nat) : List Nat → List Int
  | [] => []
  | d :: t => wrap_isize (prod : Int) :: c_strides_go ((prod * d) % WORD_MOD) t

/-- `c_strides` (src/layout/strides.rs lines 72-86): iterate the shape reversed
with a running product, emitting the product before multiplying, then reverse
back; equivalently `stride[i]` is the product of `shape[i+1..]`. -/
def c_strides (shape : List Nat) : List Int :=
  (c_strides_go 1 shape.reverse).reverse

/-- `f_strides` (src/layout/strides.rs lines 96-105): iterate the shape forward
with a running product `prod`, emitting `prod as isize` before `prod *= dim`;
equivalently `stride[i]` is the product of `shape[..i]`. -/
def f_strides (shape : List Nat) : List Int :=
  c_strides_go 1 shape

/-- The mathematical suffix products of a shape, as signed integers:
entry `i` is the product of `shape[i+1..]`.  This is the row-major default
stride formula stated by the specification. -/
def tail_prods : List Nat → List Int
  | [] => []
  | _ :: t => ((t.prod : Nat) : Int) :: tail_prods t

/-- The mathematical prefix products of a shape, as signed integers:
entry `i` is the product of `shape[..i]`.  This is the column-major default
stride formula stated by the specification. -/
def head_prods (shape : List Nat) : List Int :=
  (tail_prods shape.reverse).reverse

/-- A rank descriptor: either a fixed compile-time rank `NDim<n>` or the
dynamic marker `DDyn` (src/layout/dimensionality.rs). -/
inductive Dimality where
  | ndim (n : Nat)
  | ddyn
deriving DecidableEq

/-- `NDim<n>` implements `Dimensionality` exactly for `1 ≤ n ≤ 12`
(src/layout/dimensionality.rs lines 223-241). -/
def isImplementedNDim (n : Nat) : Bool := decide (1 ≤ n ∧ n ≤ 12)

/-- The `DMax` trait impls as a partial type-level function
(src/layout/dimensionality.rs lines 152-206 and 259-287): any combination
involving `DDyn` yields `DDyn`; the reflexive impl yields the common fixed
value (for implemented ranks); the `impl_max!` macro covers every ordered pair
of distinct fixed ranks in `1..=12`, yielding the larger one; no impl exists
for any other pair. -/
def dmax : Dimality → Dimality → Option Dimality
  | .ddyn, _ => some .ddyn
  | _, .ddyn => some .ddyn
  | .ndim a, .ndim b =>
    if a = b then
      if isImplementedNDim a then some (.ndim a) else none
    else
      if isImplementedNDim a && isImplementedNDim b then some (.ndim (max a b))
      else none

/-- The inline capacity of the dynamic representation
(src/layout/dyn_repr.rs line 21). -/
def CAP : Nat := 4

/-- `DynAxesRepr<T>` (src/layout/dyn_repr.rs lines 23-28) at `T = usize`:
either an inline buffer of `CAP` entries with an explicit length, or a
heap-allocated boxed slice. -/
inductive DynRepr where
  | Inline (len : Nat) (arr : List Nat)
  | Alloc (items : List Nat)
deriving DecidableEq

/-- `DynAxesRepr::ndim` (src/layout/dyn_repr.rs lines 33-42). -/
def DynRepr.ndim : DynRepr → Nat
  | .Inline len _ => len
  | .Alloc items => items.length

/-- The axis entries a `DynAxesRepr` dereferences to
(src/layout/dyn_repr.rs lines 44-58): the first `len` inline entries, or the
whole boxed slice. -/
def DynRepr.entries : DynRepr → List Nat
  | .Inline len arr => arr.take len
  | .Alloc items => items

/-- `ShapeStrideError` (src/layout/mod.rs lines 103-115), with the phantom
type parameter dropped. -/
inductive ShapeStrideError where
  | OutOfBounds (idx : Nat)
  | FixedIndex (idx : Nat)
  | BadDimality (d : Nat)
  | ShapeOverflow
deriving DecidableEq

/-- `NShape::<N>::try_full` (src/layout/n_repr.rs lines 335-342): succeeds with
`[value; N]` iff the requested `ndim` equals the fixed rank `N`. -/
def NShape_try_full (N ndim value : Nat) : Except ShapeStrideError (List Nat) :=
  if ndim = N then .ok (List.replicate N value)
  else .error (.BadDimality ndim)

/-- `DShape::try_full` (src/layout/dyn_repr.rs lines 276-287): for
`ndim <= CAP`, an inline value `Inline(ndim, [value; CAP])`; otherwise the
source runs `let mut v = Vec::with_capacity(ndim); v.fill(value);` — the
vector has length 0, `fill` writes over the zero existing elements, and the
resulting boxed slice is empty. -/
def DShape_try_full (ndim value : Nat) : Except ShapeStrideError DynRepr :=
  if ndim ≤ CAP then .ok (.Inline ndim (List.replicate CAP value))
  else .ok (.Alloc [])

/-- `NLayout::index` loop body (src/layout/mod.rs lines 353-360), one axis at
a time: `offset += (index[idx] as isize) * self.strides[idx]` with wrapping
cast, multiplication and addition. -/
def NLayout_index_go (offset : Int) : List Nat → List Int → Int
  | [], _ => offset
  | _, [] => offset
  | i :: it, s :: st =>
    NLayout_index_go (wrap_isize (offset + wrap_isize (wrap_isize (i : Int) * s))) it st

/-- `NLayout::index` (src/layout/mod.rs lines 353-360): start from offset 0
and accumulate over all axes. -/
def NLayout_index (index : List Nat) (strides : List Int) : Int :=
  NLayout_index_go 0 index strides

/-- The specification's dot product of a multidimensional index with the
strides: the sum over `i` of `index[i] * strides[i]`, in exact integers. -/
def dotProduct (index : List Nat) (strides : List Int) : Int :=
  (List.zipWith (fun (i : Nat) (s : Int) => (i : Int) * s) index strides).sum

/-- A broadcast view's layout: a shape paired with strides. -/
structure BroadcastView where
  shape : List Nat
  strides : List Int
deriving DecidableEq

/-- Modelled from the spec: `ArrayView::from_shape_ptr(shape.strides(st), ptr)`
(called in src/broadcast.rs lines 31-41) builds a view with exactly the given
shape and the given strides over the pointed-to storage; the view type itself
is not part of the sources under src/. -/
def from_shape_strides (shape : List Nat) (strides : List Int) : BroadcastView :=
  { shape := shape, strides := strides }

/-- The scalar impl `Broadcastable<A, false> for A::maybe_broadcast`
(src/broadcast.rs lines 20-50): unconditionally returns `Some` of a view whose
shape is the target shape and whose strides are `E::Dim::zeros(ndim)`, one
zero per target axis. -/
def maybe_broadcast_scalar (target : List Nat) : Option BroadcastView :=
  some (from_shape_strides target (List.replicate target.length 0))

/-- `Shape::into_checked` (src/layout/shape.rs lines 83-87): wraps the shape
in `Checked` whenever `self.size_checked()` returns `Some`.  The `Checked`
newtype is modelled as the underlying axis list it carries.  For `NShape` and
`DShape` the overridden, `usize`-only `size_checked` is the one called. -/
def into_checked (shape : List Nat) : Option (List Nat) :=
  (size_checked shape).map (fun _ => shape)

/-- `Shape::size_bytes_checked` (src/layout/shape.rs lines 139-144) for an
element type of `size_of` bytes: the element count (overridden `size_checked`),
times the element size with `usize::checked_mul`, then the fits-in-`isize` check. -/
def size_bytes_checked (size_of : Nat) (shape : List Nat) : Option Nat :=
  ((size_checked shape).bind (fun v => checked_mul_usize v size_of)).bind
    as_usize_if_isize_compatible

/-- `Shape::into_checked_for::<T>` (src/layout/shape.rs lines 89-95): wraps the
shape in `Checked` whenever `size_bytes_checked::<T>` returns `Some`. -/
def into_checked_for (size_of : Nat) (shape : List Nat) : Option (List Nat) :=
  match size_bytes_checked size_of shape with
  | none => none
  | some _ => some shape

/-- `Checked::<NShape<N>>::try_full` (src/layout/checked.rs lines 90-98):
checks `ndim.checked_mul(value)` for `usize` overflow (note: not the product
of the `ndim` axis lengths), then defers to the inner `NShape::try_full`. -/
def Checked_try_full (N ndim value : Nat) : Except ShapeStrideError (List Nat) :=
  match checked_mul_usize ndim value with
  | none => .error .ShapeOverflow
  | some _ => NShape_try_full N ndim value

/-- The `CheckedShape` invariant (src/layout/shape.rs lines 165-187): the
product of the axis lengths is at most `isize::MAX`. -/
def CheckedShapeInvariant (shape : List Nat) : Prop :=
  shape.prod ≤ ISIZE_MAX_NAT

instance (shape : List Nat) : Decidable (CheckedShapeInvariant shape) :=
  inferInstanceAs (Decidable (shape.prod ≤ ISIZE_MAX_NAT))

end NdLayout

namespace NdLayout

/-- A value already within the `isize` range is fixed by the wrapping cast. -/
theorem wrap_isize_eq_of_range (x : Int) (h1 : ISIZE_MIN ≤ x) (h2 : x ≤ ISIZE_MAX) :
    wrap_isize x = x := by
  have e63 : (2 : Int) ^ 63 = 9223372036854775808 := by norm_num
  have e64 : (2 : Int) ^ 64 = 18446744073709551616 := by norm_num
  unfold wrap_isize ISIZE_MIN ISIZE_MAX at *
  rw [e63, e64] at *
  omega

/-- The wrapping cast preserves residues modulo the word size. -/
theorem wrap_isize_mod (x : Int) : wrap_isize x % 2 ^ 64 = x % 2 ^ 64 := by
  have e63 : (2 : Int) ^ 63 = 9223372036854775808 := by norm_num
  have e64 : (2 : Int) ^ 64 = 18446744073709551616 := by norm_num
  unfold wrap_isize
  rw [e63, e64]
  omega

/-- The wrapping cast lands in the `isize` range. -/
theorem wrap_isize_bounds (x : Int) :
    ISIZE_MIN ≤ wrap_isize x ∧ wrap_isize x ≤ ISIZE_MAX := by
  have e63 : (2 : Int) ^ 63 = 9223372036854775808 := by norm_num
  have e64 : (2 : Int) ^ 64 = 18446744073709551616 := by norm_num
  unfold wrap_isize ISIZE_MIN ISIZE_MAX
  rw [e63, e64]
  omega

/-- The wrapping cast only depends on the residue modulo the word size. -/
theorem wrap_isize_congr (x y : Int) (h : x % 2 ^ 64 = y % 2 ^ 64) :
    wrap_isize x = wrap_isize y := by
  have e63 : (2 : Int) ^ 63 = 9223372036854775808 := by norm_num
  have e64 : (2 : Int) ^ 64 = 18446744073709551616 := by norm_num
  unfold wrap_isize
  rw [e63, e64] at *
  omega

theorem emod_add_congr (a b c : Int) (h : a % 2 ^ 64 = b % 2 ^ 64) :
    (c + a) % 2 ^ 64 = (c + b) % 2 ^ 64 := by
  rw [Int.add_emod c a, Int.add_emod c b, h]

theorem emod_mul_congr (a b c : Int) (h : a % 2 ^ 64 = b % 2 ^ 64) :
    (a * c) % 2 ^ 64 = (b * c) % 2 ^ 64 := by
  rw [Int.mul_emod a c, Int.mul_emod b c, h]

/-- `isize::MIN` is below every natural number cast to the integers. -/
theorem isize_min_le_natCast (n : Nat) : ISIZE_MIN ≤ (n : Int) :=
  le_trans (by norm_num [ISIZE_MIN]) (Int.natCast_nonneg n)

/-- A product of axis lengths that are all at least one is at least one. -/
theorem one_le_prod : ∀ (l : List Nat), (∀ d ∈ l, 1 ≤ d) → 1 ≤ l.prod
  | [], _ => le_refl 1
  | x :: t, h => by
    rw [List.prod_cons]
    have hx : 1 ≤ x := h x (by simp)
    have ht := one_le_prod t (fun d hd => h d (List.mem_cons_of_mem _ hd))
    exact Nat.one_le_iff_ne_zero.mpr (Nat.mul_ne_zero (by omega) (by omega))

/-- When every axis length is positive and the total element count fits in
`isize`, the wrapping arithmetic in `default_c` never wraps and the computed
strides are exactly the suffix products of the shape. -/
theorem default_c_eq_tail_prods :
    ∀ (shape : List Nat), (∀ d ∈ shape, 1 ≤ d) → shape.prod ≤ ISIZE_MAX_NAT →
      default_c shape = tail_prods shape
  | [], _, _ => rfl
  | [x], _, _ => by simp [default_c, tail_prods]
  | x :: y :: t, h1, hfit => by
    have hx : 1 ≤ x := h1 x (by simp)
    have hy : 1 ≤ y := h1 y (by simp)
    have hall : ∀ d ∈ y :: t, 1 ≤ d := fun d hd => h1 d (List.mem_cons_of_mem _ hd)
    have htp : 1 ≤ t.prod :=
      one_le_prod t (fun d hd => hall d (List.mem_cons_of_mem _ hd))
    have hprod_le : (y :: t).prod ≤ (x :: y :: t).prod := by
      conv_rhs => rw [List.prod_cons]
      exact Nat.le_mul_of_pos_left _ (by omega)
    have hfit2 : (y :: t).prod ≤ ISIZE_MAX_NAT := le_trans hprod_le hfit
    have ih := default_c_eq_tail_prods (y :: t) hall hfit2
    show wrap_isize ((default_c (y :: t)).headD 1 * wrap_isize (y : Int)) :: default_c (y :: t)
        = tail_prods (x :: y :: t)
    rw [ih]
    have hhead : (tail_prods (y :: t)).headD 1 = ((t.prod : Nat) : Int) := rfl
    have hyfit : (y : Int) ≤ ISIZE_MAX := by
      have hyp : y ≤ (y :: t).prod := by
        conv_rhs => rw [List.prod_cons]
        exact Nat.le_mul_of_pos_right _ (by omega)
      have : y ≤ ISIZE_MAX_NAT := le_trans hyp hfit2
      unfold ISIZE_MAX_NAT at this
      unfold ISIZE_MAX
      omega
    have hwy : wrap_isize (y : Int) = (y : Int) :=
      wrap_isize_eq_of_range _ (isize_min_le_natCast y) hyfit
    have hyt : ((t.prod : Nat) : Int) * (y : Int) = (((y :: t).prod : Nat) : Int) := by
      rw [List.prod_cons]
      push_cast
      ring
    have hytfit : (((y :: t).prod : Nat) : Int) ≤ ISIZE_MAX := by
      unfold ISIZE_MAX_NAT at hfit2
      unfold ISIZE_MAX
      omega
    rw [hhead, hwy, hyt,
      wrap_isize_eq_of_range _ (isize_min_le_natCast _) hytfit]
    rfl

/-- Suffix products of a shape with positive axis lengths are non-increasing. -/
theorem is_c_order_tail_prods :
    ∀ (shape : List Nat), (∀ d ∈ shape, 1 ≤ d) → is_c_order (tail_prods shape) = true
  | [], _ => rfl
  | [_], _ => rfl
  | x :: y :: t, h1 => by
    have hy : 1 ≤ y := h1 y (by simp)
    have hall : ∀ d ∈ y :: t, 1 ≤ d := fun d hd => h1 d (List.mem_cons_of_mem _ hd)
    have ih := is_c_order_tail_prods (y :: t) hall
    have hprod : t.prod ≤ (y :: t).prod := by
      rw [List.prod_cons]
      exact Nat.le_mul_of_pos_left _ (by omega)
    show (decide ((((y :: t).prod : Nat) : Int) ≥ ((t.prod : Nat) : Int)) &&
        is_c_order (tail_prods (y :: t))) = true
    rw [ih, Bool.and_true, decide_eq_true_eq]
    exact_mod_cast hprod

end NdLayout

namespace NdLayout

/-- C1: for shape `[2,0,3]` with strides `[3,6,-1]`, `offset_range_checked`
is claimed (and documented in the `Layout` trait docs, src/layout/mod.rs lines
186-189) to return exactly 5; the implementation instead lets the zero-length
middle axis contribute `(0-1)*6 = -6` to the running minimum and returns 11. -/
theorem offset_range_shape203_returns_11 :
    offset_range_checked [2, 0, 3] [3, 6, -1] = some 11 ∧ (11 : Int) ≠ 5 := by
  constructor
  · decide
  · decide

/-- C2: `size_checked` is claimed to return `None` when the product of axis
lengths exceeds `isize::MAX`; the `NShape`/`DShape` overrides omit the
fits-in-`isize` check, so the shape `[isize::MAX, 2]` yields
`Some(2 * isize::MAX)` instead of `None` (while `[5,6,3,4]` yields `Some 360`,
and the trait default `size_checked_default` would have returned `None`). -/
theorem size_checked_overflow_not_rejected :
    size_checked [ISIZE_MAX_NAT, 2] = some (2 ^ 64 - 2) ∧
    ¬ (2 ^ 64 - 2 ≤ ISIZE_MAX_NAT) ∧
    size_checked_default [ISIZE_MAX_NAT, 2] = none ∧
    size_checked [5, 6, 3, 4] = some 360 := by
  refine ⟨by decide, by decide, by decide, by decide⟩

/-- C10: scalar `Mul` multiplies each axis, but the `MulAssign` impl adds the
scalar instead (its body is `*o += rhs`), so `s * k` and `s *= k` disagree:
for `s = [2,3]` and `k = 4`, `Mul` yields `[8,12]` while `MulAssign` leaves
`[6,7]`. -/
theorem nshape_mul_assign_adds :
    NShape_mul [2, 3] 4 = [8, 12] ∧
    NShape_mul_assign [2, 3] 4 = [6, 7] ∧
    ([8, 12] : List Nat) ≠ [6, 7] := by
  refine ⟨by decide, by decide, by decide⟩

/-- C3 counterexample: the row-major default strides of the shape `[3, 0]`
are `[0, 1]`, and `is_c_order [0, 1]` is `false`: a zero-length trailing axis
makes the stride to its left zero, which is strictly below the unit stride. -/
theorem default_c_zero_axis_not_c_order :
    is_c_order (default_c [3, 0]) = false := by
  decide

/-- C4: `NStrides::default_f` is claimed to satisfy the column-major formula
`stride[i] = product of shape[..i]`; at shape `[2,3,4]` it computes `[1,3,12]`
(its loop multiplies by `shape[i]` instead of `shape[i-1]`), while the repo's
own `f_strides` helper and the formula give `[1,2,6]`, and the two differ.
(The sibling `c_strides` does match the row-major formula at this shape.) -/
theorem default_f_mismatch_at_234 :
    NStrides_default_f [2, 3, 4] = [1, 3, 12] ∧
    f_strides [2, 3, 4] = [1, 2, 6] ∧
    head_prods [2, 3, 4] = [1, 2, 6] ∧
    c_strides [2, 3, 4] = [12, 4, 1] ∧
    ([1, 3, 12] : List Int) ≠ [1, 2, 6] := by
  refine ⟨by decide, by decide, by decide, by decide, by decide⟩

/-- C5 counterexample: combining the fixed rank descriptors 2 and 3 yields the
fixed rank 3 (the `impl_max!` impl for the pair), not the dynamic marker as
the claim states. -/
theorem dmax_two_three_is_three :
    dmax (.ndim 2) (.ndim 3) = some (.ndim 3) ∧
    some (Dimality.ndim 3) ≠ some Dimality.ddyn := by
  refine ⟨by decide, by decide⟩

/-- C5 (amended): combining two fixed descriptors within the ceiling yields
the fixed maximum of the two values (the common value when equal), and any
combination involving the dynamic marker yields the dynamic marker. -/
theorem dmax_amended (a b : Nat) (ha1 : 1 ≤ a) (ha2 : a ≤ 12)
    (hb1 : 1 ≤ b) (hb2 : b ≤ 12) :
    dmax (.ndim a) (.ndim b) = some (.ndim (max a b)) ∧
    dmax .ddyn (.ndim a) = some .ddyn ∧
    dmax (.ndim a) .ddyn = some .ddyn ∧
    dmax .ddyn .ddyn = some .ddyn := by
  refine ⟨?_, rfl, rfl, rfl⟩
  by_cases h : a = b
  · subst h
    simp [dmax, isImplementedNDim, ha1, ha2]
  · simp [dmax, isImplementedNDim, h, ha1, ha2, hb1, hb2]

/-- Witness for `dmax_amended` at the concrete pair (5, 7). -/
theorem dmax_amended_witness :
    dmax (.ndim 5) (.ndim 7) = some (.ndim (max 5 7)) ∧
    dmax .ddyn (.ndim 5) = some .ddyn ∧
    dmax (.ndim 5) .ddyn = some .ddyn ∧
    dmax .ddyn .ddyn = some .ddyn :=
  dmax_amended 5 7 (by decide) (by decide) (by decide) (by decide)

/-- C6: `DShape::try_full(5, 7)` succeeds but returns the empty heap variant
(`Vec::with_capacity(5)` has length 0 and `fill` writes nothing), so the
constructed value stores 0 axis entries instead of the requested 5 — the
declared-rank-equals-stored-entries invariant is broken at construction.
(`NShape::<3>::try_full` behaves as claimed at rank 3.) -/
theorem dshape_try_full_large_ndim_empty :
    DShape_try_full 5 7 = .ok (.Alloc []) ∧
    DynRepr.ndim (.Alloc []) = 0 ∧
    (0 : Nat) ≠ 5 ∧
    NShape_try_full 3 3 7 = .ok [7, 7, 7] ∧
    NShape_try_full 3 2 7 = .error (.BadDimality 2) := by
  refine ⟨rfl, rfl, by decide, rfl, rfl⟩

/-- C9: the safe `Checked` constructors do not enforce the `CheckedShape`
invariant: `Checked::<NShape<2>>::try_full(2, 2^62)` only checks
`ndim * value` for `usize` overflow and succeeds, yet the produced shape has
`2^124` elements; `into_checked` accepts `[isize::MAX, 2]` because the
overridden `size_checked` never compares against `isize::MAX`; and
`into_checked_for` with a zero-sized element type accepts it too. -/
theorem checked_constructors_violate_invariant :
    Checked_try_full 2 2 (2 ^ 62) = .ok [2 ^ 62, 2 ^ 62] ∧
    ¬ CheckedShapeInvariant [2 ^ 62, 2 ^ 62] ∧
    into_checked [ISIZE_MAX_NAT, 2] = some [ISIZE_MAX_NAT, 2] ∧
    into_checked_for 0 [ISIZE_MAX_NAT, 2] = some [ISIZE_MAX_NAT, 2] ∧
    ¬ CheckedShapeInvariant [ISIZE_MAX_NAT, 2] := by
  refine ⟨rfl, by decide, by decide, by decide, by decide⟩

/-- C3 (amended): for every shape whose axis lengths are all positive and
whose element count fits in `isize` (so that no stride computation wraps),
the row-major default strides classify as C-ordered; and `is_c_order` holds
for every strides value of rank 0 or 1.  (Shapes with a zero-length axis can
fail the classification: see the counterexample `[3, 0]`.) -/
theorem default_c_is_c_order (shape : List Nat)
    (hpos : ∀ d ∈ shape, 1 ≤ d) (hfit : shape.prod ≤ ISIZE_MAX_NAT) :
    is_c_order (default_c shape) = true ∧
    ∀ s : List Int, s.length ≤ 1 → is_c_order s = true := by
  constructor
  · rw [default_c_eq_tail_prods shape hpos hfit]
    exact is_c_order_tail_prods shape hpos
  · intro s hs
    match s with
    | [] => rfl
    | [_] => rfl
    | _ :: _ :: _ => simp at hs

/-- Witness for `default_c_is_c_order` at the concrete shape `[4, 5]`. -/
theorem default_c_is_c_order_witness :
    is_c_order (default_c [4, 5]) = true :=
  (default_c_is_c_order [4, 5] (by decide) (by decide)).1

theorem dotProduct_nil_left (st : List Int) : dotProduct [] st = 0 := by
  simp [dotProduct]

theorem dotProduct_nil_right (index : List Nat) : dotProduct index [] = 0 := by
  simp [dotProduct]

theorem dotProduct_cons (i : Nat) (it : List Nat) (s : Int) (st : List Int) :
    dotProduct (i :: it) (s :: st) = (i : Int) * s + dotProduct it st := by
  simp [dotProduct]

/-- The offset loop of `NLayout::index` computes, for an accumulator already
in the `isize` range, the wrapped value of the exact accumulated dot product:
every wrapping step preserves the residue modulo the word size. -/
theorem NLayout_index_go_spec :
    ∀ (index : List Nat) (strides : List Int) (off : Int), wrap_isize off = off →
      NLayout_index_go off index strides = wrap_isize (off + dotProduct index strides)
  | [], st, off, hoff => by
    simp [NLayout_index_go, dotProduct, hoff]
  | i :: it, [], off, hoff => by
    simp [NLayout_index_go, dotProduct, hoff]
  | i :: it, s :: st, off, hoff => by
    have hb := wrap_isize_bounds (off + wrap_isize (wrap_isize (i : Int) * s))
    have hidem : wrap_isize (wrap_isize (off + wrap_isize (wrap_isize (i : Int) * s))) =
        wrap_isize (off + wrap_isize (wrap_isize (i : Int) * s)) :=
      wrap_isize_eq_of_range _ hb.1 hb.2
    have ih := NLayout_index_go_spec it st
      (wrap_isize (off + wrap_isize (wrap_isize (i : Int) * s))) hidem
    show NLayout_index_go (wrap_isize (off + wrap_isize (wrap_isize (i : Int) * s))) it st
        = wrap_isize (off + dotProduct (i :: it) (s :: st))
    rw [ih, dotProduct_cons]
    apply wrap_isize_congr
    have h1 : (wrap_isize (wrap_isize (i : Int) * s)) % 2 ^ 64 = ((i : Int) * s) % 2 ^ 64 := by
      rw [wrap_isize_mod]
      exact emod_mul_congr _ _ _ (wrap_isize_mod _)
    have h2 : (off + wrap_isize (wrap_isize (i : Int) * s)) % 2 ^ 64 =
        (off + (i : Int) * s) % 2 ^ 64 :=
      emod_add_congr _ _ _ h1
    calc (wrap_isize (off + wrap_isize (wrap_isize (i : Int) * s)) + dotProduct it st) % 2 ^ 64
        = ((off + (i : Int) * s) + dotProduct it st) % 2 ^ 64 := by
          rw [Int.add_emod _ (dotProduct it st), wrap_isize_mod, h2,
            ← Int.add_emod]
      _ = (off + ((i : Int) * s + dotProduct it st)) % 2 ^ 64 := by
          rw [add_assoc]

/-- C7: for a fixed-rank layout, `NLayout::index` applied to a full
multidimensional index (one coordinate per axis, matching rank) returns the
signed element offset equal to the dot product of the coordinates with the
strides, whenever that dot product is representable in `isize` (the loop
itself computes with wrapping machine arithmetic). -/
theorem NLayout_index_eq_dotProduct (index : List Nat) (strides : List Int)
    (_hlen : index.length = strides.length)
    (h1 : ISIZE_MIN ≤ dotProduct index strides)
    (h2 : dotProduct index strides ≤ ISIZE_MAX) :
    NLayout_index index strides = dotProduct index strides := by
  have hz : wrap_isize 0 = 0 :=
    wrap_isize_eq_of_range 0 (by norm_num [ISIZE_MIN]) (by norm_num [ISIZE_MAX])
  rw [NLayout_index, NLayout_index_go_spec index strides 0 hz, zero_add]
  exact wrap_isize_eq_of_range _ h1 h2

/-- Witness for `NLayout_index_eq_dotProduct` at index `[1,2,3]` with strides
`[4,5,-6]` (both sides evaluate to -4). -/
theorem NLayout_index_eq_dotProduct_witness :
    NLayout_index [1, 2, 3] [4, 5, -6] = dotProduct [1, 2, 3] [4, 5, -6] :=
  NLayout_index_eq_dotProduct [1, 2, 3] [4, 5, -6] rfl (by decide) (by decide)

/-- The dot product against all-zero strides vanishes. -/
theorem dotProduct_zero_strides :
    ∀ (index : List Nat) (n : Nat), dotProduct index (List.replicate n 0) = 0
  | [], _ => dotProduct_nil_left _
  | _ :: _, 0 => dotProduct_nil_right _
  | i :: it, n + 1 => by
    rw [List.replicate_succ, dotProduct_cons, dotProduct_zero_strides it n]
    ring

/-- C8: broadcasting a scalar against any target shape always succeeds and
yields a view whose shape is the target shape and whose stride is 0 on every
axis, so the indexing offset of every logical position is 0 — each position
reads the one stored element. -/
theorem maybe_broadcast_scalar_spec (target : List Nat) :
    (maybe_broadcast_scalar target).isSome = true ∧
    (maybe_broadcast_scalar target).map BroadcastView.shape = some target ∧
    (maybe_broadcast_scalar target).map BroadcastView.strides =
      some (List.replicate target.length 0) ∧
    ∀ index : List Nat, NLayout_index index (List.replicate target.length 0) = 0 := by
  refine ⟨rfl, rfl, rfl, ?_⟩
  intro index
  have hz : wrap_isize 0 = 0 :=
    wrap_isize_eq_of_range 0 (by norm_num [ISIZE_MIN]) (by norm_num [ISIZE_MAX])
  rw [NLayout_index, NLayout_index_go_spec index _ 0 hz,
    dotProduct_zero_strides index target.length, add_zero, hz]

end NdLayout
